import Mathlib

/-!
Verification of the gonifti NIfTI-1 decoder core (`nifti1/nifti1.go` and the
single-file variant `nifti1.go`).

Modelling conventions:
* A byte buffer is a `List ℕ` (each element a byte value `< 256`; `binary.Read`
  style access uses `getD _ 0`, matching reads of in-bounds bytes exactly).
* Go signed integers (`int8`/`int16`/`int32`) are modelled as `ℤ` obtained by
  two's-complement reinterpretation of the raw bytes.
* Go `float32` header fields are kept as their raw 32-bit patterns (`ℕ`);
  the IEEE-754 value of a finite pattern is recovered exactly as a rational by
  `f32ToRat`. Infinities and NaNs are flagged by the exponent field; theorems
  about float-dependent behaviour hypothesize finiteness.
* Go 64-bit `int` arithmetic wraps; `wrap64` performs the two's-complement
  reduction where overflow is reachable (the voxel-size product in `SetData`).
* `log.Fatal` / `panic` abort the program; fallible operations are therefore
  modelled with `Except`/`Option`.
-/

set_option maxRecDepth 100000

namespace Gonifti

/-- Endianness chosen by the byte-order probe (`encoding/binary` orders). -/
inductive ByteOrder where
  | little
  | big
deriving DecidableEq, Repr

/-- Byte at index `i` of buffer `b` (in-bounds reads only are exercised). -/
def byteAt (b : List ℕ) (i : ℕ) : ℕ := b.getD i 0

/-- Unsigned 16-bit read at `off` under byte order `o`. -/
def readU16 (o : ByteOrder) (b : List ℕ) (off : ℕ) : ℕ :=
  match o with
  | .little => byteAt b off + 2 ^ 8 * byteAt b (off + 1)
  | .big => 2 ^ 8 * byteAt b off + byteAt b (off + 1)

/-- Unsigned 32-bit read at `off` under byte order `o`. -/
def readU32 (o : ByteOrder) (b : List ℕ) (off : ℕ) : ℕ :=
  match o with
  | .little =>
      byteAt b off + 2 ^ 8 * byteAt b (off + 1) + 2 ^ 16 * byteAt b (off + 2) +
        2 ^ 24 * byteAt b (off + 3)
  | .big =>
      2 ^ 24 * byteAt b off + 2 ^ 16 * byteAt b (off + 1) + 2 ^ 8 * byteAt b (off + 2) +
        byteAt b (off + 3)

/-- Two's-complement reinterpretation of a `w`-bit unsigned value as signed. -/
def toSigned (w : ℕ) (n : ℕ) : ℤ :=
  if n < 2 ^ (w - 1) then (n : ℤ) else (n : ℤ) - 2 ^ w

/-- Go `int8` read (single byte, no endianness). -/
def readI8 (b : List ℕ) (off : ℕ) : ℤ := toSigned 8 (byteAt b off)

/-- Go `int16` read. -/
def readI16 (o : ByteOrder) (b : List ℕ) (off : ℕ) : ℤ := toSigned 16 (readU16 o b off)

/-- Go `int32` read. -/
def readI32 (o : ByteOrder) (b : List ℕ) (off : ℕ) : ℤ := toSigned 32 (readU32 o b off)

/-- Model of the Go `nifti1.Header` struct (the 348-byte NIfTI-1 header).
`float32` fields hold their raw 32-bit patterns; fixed-size arrays are lists
of the corresponding element values (length fixed by the decoder). -/
structure Header where
  sizeOfHdr : ℤ
  unusedDataType : List ℤ
  unusedDbName : List ℤ
  unusedExtents : ℤ
  unusedSessionError : ℤ
  unusedRegular : ℤ
  dimInfo : ℤ
  dim : List ℤ
  intentP1 : ℕ
  intentP2 : ℕ
  intentP3 : ℕ
  intentCode : ℤ
  dataType : ℤ
  bitPix : ℤ
  sliceStart : ℤ
  pixDim : List ℕ
  voxOffset : ℕ
  sclSlope : ℕ
  sclInter : ℕ
  sliceEnd : ℤ
  sliceCode : ℤ
  xyztUnits : ℤ
  calMax : ℕ
  calMin : ℕ
  sliceDuration : ℕ
  tOffset : ℕ
  unusedGlmax : ℤ
  unusedGlmin : ℤ
  descrip : List ℤ
  auxFile : List ℤ
  qFormCode : ℤ
  sFormCode : ℤ
  quaternB : ℕ
  quaternC : ℕ
  quaternD : ℕ
  qOffsetX : ℕ
  qOffsetY : ℕ
  qOffsetZ : ℕ
  sRowX : List ℕ
  sRowY : List ℕ
  sRowZ : List ℕ
  intentName : List ℤ
  magic : List ℤ

/-- Field-by-field decode of the 348-byte header layout starting at offset 0 of
`b`, under byte order `o`. Offsets follow the sequential `binary.Read` of the
Go struct (identical to the official nifti1.h layout). -/
def decodeHeader (o : ByteOrder) (b : List ℕ) : Header where
  sizeOfHdr := readI32 o b 0
  unusedDataType := (List.range 10).map fun i => readI8 b (4 + i)
  unusedDbName := (List.range 18).map fun i => readI8 b (14 + i)
  unusedExtents := readI32 o b 32
  unusedSessionError := readI16 o b 36
  unusedRegular := readI8 b 38
  dimInfo := readI8 b 39
  dim := (List.range 8).map fun i => readI16 o b (40 + 2 * i)
  intentP1 := readU32 o b 56
  intentP2 := readU32 o b 60
  intentP3 := readU32 o b 64
  intentCode := readI16 o b 68
  dataType := readI16 o b 70
  bitPix := readI16 o b 72
  sliceStart := readI16 o b 74
  pixDim := (List.range 8).map fun i => readU32 o b (76 + 4 * i)
  voxOffset := readU32 o b 108
  sclSlope := readU32 o b 112
  sclInter := readU32 o b 116
  sliceEnd := readI16 o b 120
  sliceCode := readI8 b 122
  xyztUnits := readI8 b 123
  calMax := readU32 o b 124
  calMin := readU32 o b 128
  sliceDuration := readU32 o b 132
  tOffset := readU32 o b 136
  unusedGlmax := readI32 o b 140
  unusedGlmin := readI32 o b 144
  descrip := (List.range 80).map fun i => readI8 b (148 + i)
  auxFile := (List.range 24).map fun i => readI8 b (228 + i)
  qFormCode := readI16 o b 252
  sFormCode := readI16 o b 254
  quaternB := readU32 o b 256
  quaternC := readU32 o b 260
  quaternD := readU32 o b 264
  qOffsetX := readU32 o b 268
  qOffsetY := readU32 o b 272
  qOffsetZ := readU32 o b 276
  sRowX := (List.range 4).map fun i => readU32 o b (280 + 4 * i)
  sRowY := (List.range 4).map fun i => readU32 o b (296 + 4 * i)
  sRowZ := (List.range 4).map fun i => readU32 o b (312 + 4 * i)
  intentName := (List.range 16).map fun i => readI8 b (328 + i)
  magic := (List.range 4).map fun i => readI8 b (344 + i)

/-- Unsigned `w`-bit pattern of a signed value (two's complement), for encoding. -/
def toU (w : ℕ) (v : ℤ) : ℕ := (v % (2 ^ w : ℤ)).toNat

/-- Little/big-endian bytes of an unsigned 16-bit value. -/
def writeU16 (o : ByteOrder) (n : ℕ) : List ℕ :=
  match o with
  | .little => [n % 2 ^ 8, n / 2 ^ 8 % 2 ^ 8]
  | .big => [n / 2 ^ 8 % 2 ^ 8, n % 2 ^ 8]

/-- Little/big-endian bytes of an unsigned 32-bit value. -/
def writeU32 (o : ByteOrder) (n : ℕ) : List ℕ :=
  match o with
  | .little => [n % 2 ^ 8, n / 2 ^ 8 % 2 ^ 8, n / 2 ^ 16 % 2 ^ 8, n / 2 ^ 24 % 2 ^ 8]
  | .big => [n / 2 ^ 24 % 2 ^ 8, n / 2 ^ 16 % 2 ^ 8, n / 2 ^ 8 % 2 ^ 8, n % 2 ^ 8]

/-- Byte of a Go `int8`. -/
def writeI8 (v : ℤ) : List ℕ := [toU 8 v]

/-- Bytes of a Go `int16` under byte order `o`. -/
def writeI16 (o : ByteOrder) (v : ℤ) : List ℕ := writeU16 o (toU 16 v)

/-- Bytes of a Go `int32` under byte order `o`. -/
def writeI32 (o : ByteOrder) (v : ℤ) : List ℕ := writeU32 o (toU 32 v)

/-- Field-by-field encoding of a header under byte order `o`: the exact
inverse layout of `decodeHeader` (what `binary.Write` of the Go struct emits). -/
def encodeHeader (o : ByteOrder) (h : Header) : List ℕ :=
  writeI32 o h.sizeOfHdr ++
  (h.unusedDataType.map fun v => toU 8 v) ++
  (h.unusedDbName.map fun v => toU 8 v) ++
  writeI32 o h.unusedExtents ++
  writeI16 o h.unusedSessionError ++
  writeI8 h.unusedRegular ++
  writeI8 h.dimInfo ++
  (h.dim.map fun v => writeI16 o v).flatten ++
  writeU32 o h.intentP1 ++
  writeU32 o h.intentP2 ++
  writeU32 o h.intentP3 ++
  writeI16 o h.intentCode ++
  writeI16 o h.dataType ++
  writeI16 o h.bitPix ++
  writeI16 o h.sliceStart ++
  (h.pixDim.map fun v => writeU32 o v).flatten ++
  writeU32 o h.voxOffset ++
  writeU32 o h.sclSlope ++
  writeU32 o h.sclInter ++
  writeI16 o h.sliceEnd ++
  writeI8 h.sliceCode ++
  writeI8 h.xyztUnits ++
  writeU32 o h.calMax ++
  writeU32 o h.calMin ++
  writeU32 o h.sliceDuration ++
  writeU32 o h.tOffset ++
  writeI32 o h.unusedGlmax ++
  writeI32 o h.unusedGlmin ++
  (h.descrip.map fun v => toU 8 v) ++
  (h.auxFile.map fun v => toU 8 v) ++
  writeI16 o h.qFormCode ++
  writeI16 o h.sFormCode ++
  writeU32 o h.quaternB ++
  writeU32 o h.quaternC ++
  writeU32 o h.quaternD ++
  writeU32 o h.qOffsetX ++
  writeU32 o h.qOffsetY ++
  writeU32 o h.qOffsetZ ++
  (h.sRowX.map fun v => writeU32 o v).flatten ++
  (h.sRowY.map fun v => writeU32 o v).flatten ++
  (h.sRowZ.map fun v => writeU32 o v).flatten ++
  (h.intentName.map fun v => toU 8 v) ++
  (h.magic.map fun v => toU 8 v)

/-- Cause reported by `validateHeader` via `log.Fatal` (which aborts). -/
inductive VCause where
  | badSize
  | badMagic
  | badDatatype
deriving DecidableEq, Repr

/-- The official nifti1.h code for an unknown voxel data type. -/
def DT_UNKNOWN : ℤ := 0

/-- The official nifti1.h code for 1-bit binary voxel data. -/
def DT_BINARY : ℤ := 1

/-- Model of `validateHeader` (nifti1/nifti1.go): a Go `switch` runs the first
matching case, so at most one cause is reported; `log.Fatal` aborts the whole
decode. `none` means the header passed all three checks. -/
def validateHeader (h : Header) : Option VCause :=
  if h.sizeOfHdr ≠ 348 then some .badSize
  else if h.magic ≠ [110, 43, 49, 0] then some .badMagic
  else if h.dataType = DT_BINARY ∨ h.dataType = DT_UNKNOWN then some .badDatatype
  else none

/-- Ways a decode aborts (`panic` / `log.Fatal` in the Go source). -/
inductive Err where
  | shortRead
  | indeterminateOrder
  | invalid (c : VCause)
deriving DecidableEq, Repr

/-- Model of `nifti1.ReadHeader`. The source decodes little-endian first; its
retry guard is literally `(h.Dim[0] <= 0) && (h.Dim[0] > 7)`, and a retry
(were it taken) would continue reading the `bytes.Reader` from offset 348,
not from offset 0. On a retry the same guard is re-tested and failure panics
with the indeterminate-byte-order message; finally `validateHeader` runs
(aborting on its first failing check) and `(header, order)` is returned. -/
def ReadHeader (b : List ℕ) : Except Err (Header × ByteOrder) :=
  if b.length < 348 then .error .shortRead
  else
    let h0 := decodeHeader .little b
    let attempt : Option (Header × ByteOrder) :=
      if h0.dim.getD 0 0 ≤ 0 ∧ h0.dim.getD 0 0 > 7 then
        if b.length < 696 then none
        else some (decodeHeader .big (b.drop 348), ByteOrder.big)
      else some (h0, ByteOrder.little)
    match attempt with
    | none => .error .shortRead
    | some (h, order) =>
      if h.dim.getD 0 0 ≤ 0 ∧ h.dim.getD 0 0 > 7 then .error .indeterminateOrder
      else
        match validateHeader h with
        | some c => .error (.invalid c)
        | none => .ok (h, order)

/-- Biased exponent field of a float32 bit pattern. -/
def f32Exp (n : ℕ) : ℕ := n / 2 ^ 23 % 2 ^ 8

/-- Mantissa field of a float32 bit pattern. -/
def f32Mant (n : ℕ) : ℕ := n % 2 ^ 23

/-- Sign bit of a float32 bit pattern. -/
def f32Sign (n : ℕ) : ℕ := n / 2 ^ 31 % 2

/-- A float32 pattern denotes a finite value iff its exponent field is not
all ones (otherwise it is an infinity or NaN). -/
def f32IsFinite (n : ℕ) : Prop := f32Exp n ≠ 255

instance (n : ℕ) : Decidable (f32IsFinite n) := by unfold f32IsFinite; infer_instance

/-- Exact rational value of a finite float32 bit pattern (IEEE 754:
subnormals for exponent 0, normals otherwise). Junk on non-finite patterns;
every theorem depending on it hypothesizes `f32IsFinite`. -/
def f32ToRat (n : ℕ) : ℚ :=
  let mag : ℚ :=
    if f32Exp n = 0 then (f32Mant n : ℚ) / 2 ^ 149
    else ((2 ^ 23 + f32Mant n : ℕ) : ℚ) * 2 ^ f32Exp n / 2 ^ 150
  if f32Sign n = 1 then -mag else mag

/-- Go comparison `v < c` of a float32 (by pattern) against a finite positive
constant `c`: NaN and +Inf compare false, -Inf compares true, finite values
compare by exact value. -/
def f32LtConst (n : ℕ) (c : ℚ) : Bool :=
  if f32Exp n = 255 then
    if f32Mant n = 0 then f32Sign n = 1 else false
  else f32ToRat n < c

/-- Truncation of a rational toward zero — the rounding Go uses when
converting a floating-point value to an integer type. -/
def ratTrunc (q : ℚ) : ℤ := q.num.tdiv q.den

/-- Go `int(v)` for a float32 pattern. For non-finite patterns (and finite
values outside int64 range) Go leaves the result implementation-defined; the
model truncates the exact value (0 for non-finite) and every theorem using it
hypothesizes a finite value below `2 ^ 63`. -/
def goF32ToInt (n : ℕ) : ℤ :=
  if f32Exp n = 255 then 0 else ratTrunc (f32ToRat n)

/-- Two's-complement reduction into signed 64-bit range: the value a Go
`int` (64-bit) holds after an overflowing arithmetic operation. -/
def wrap64 (x : ℤ) : ℤ := (x + 2 ^ 63) % 2 ^ 64 - 2 ^ 63

/-- Model of the Go `nifti1.Image` struct, restricted to the scalar fields the
specification's claims mention. `new(Image)` zero-initializes every field;
fields never assigned by `ConvertHeaderToImage` therefore stay `0` (`float64`
fields are modelled as exact rationals, `Data` as an optional byte list, the
omitted quaternion/matrix/naming fields are likewise never assigned and are
not referenced by any claim). -/
structure Image where
  nDim : ℤ
  nx : ℤ
  ny : ℤ
  nz : ℤ
  nt : ℤ
  nu : ℤ
  nv : ℤ
  nw : ℤ
  dim : List ℤ
  nVox : ℤ
  nByPer : ℤ
  dataType : ℤ
  dx : ℚ
  dy : ℚ
  dz : ℚ
  dt : ℚ
  du : ℚ
  dv : ℚ
  dw : ℚ
  pixDim : List ℚ
  sclSlope : ℚ
  sclInter : ℚ
  calMin : ℚ
  calMax : ℚ
  qFormCode : ℤ
  sFormCode : ℤ
  freqDim : ℤ
  phaseDim : ℤ
  sliceDim : ℤ
  sliceCode : ℤ
  sliceStart : ℤ
  sliceEnd : ℤ
  sliceDuration : ℚ
  tOffset : ℚ
  byteOrder : ByteOrder
  data : Option (List ℕ)

/-- Model of `ConvertHeaderToImage`: allocates a zeroed `Image`, then assigns
only `NDim`, `Nx..Nw`, `ByteOrder` and the `Dim` array (`img.Dim[i] =
int(h.Dim[i])` for the 8 slots). Every other field keeps its zero value. -/
def ConvertHeaderToImage (h : Header) (order : ByteOrder) : Image where
  nDim := h.dim.getD 0 0
  nx := h.dim.getD 1 0
  ny := h.dim.getD 2 0
  nz := h.dim.getD 3 0
  nt := h.dim.getD 4 0
  nu := h.dim.getD 5 0
  nv := h.dim.getD 6 0
  nw := h.dim.getD 7 0
  dim := (List.range 8).map fun i => h.dim.getD i 0
  nVox := 0
  nByPer := 0
  dataType := 0
  dx := 0
  dy := 0
  dz := 0
  dt := 0
  du := 0
  dv := 0
  dw := 0
  pixDim := List.replicate 8 0
  sclSlope := 0
  sclInter := 0
  calMin := 0
  calMax := 0
  qFormCode := 0
  sFormCode := 0
  freqDim := 0
  phaseDim := 0
  sliceDim := 0
  sliceCode := 0
  sliceStart := 0
  sliceEnd := 0
  sliceDuration := 0
  tOffset := 0
  byteOrder := order
  data := none

/-- `timeDim` local of `SetData`: `img.Dim[4]` when positive, else 1. -/
def timeDim (img : Image) : ℤ :=
  if img.dim.getD 4 0 > 0 then img.dim.getD 4 0 else 1

/-- `statDim` local of `SetData`: `img.Dim[5]` when positive, else 1. -/
def statDim (img : Image) : ℤ :=
  if img.dim.getD 5 0 > 0 then img.dim.getD 5 0 else 1

/-- The `offset` local of `SetData` (and of `readData` in the single-file
variant): 352 when `h.VoxOffset < 352` under Go float comparison, otherwise
`int(h.VoxOffset)`. -/
def setDataOffset (h : Header) : ℤ :=
  if f32LtConst h.voxOffset 352 then 352 else goF32ToInt h.voxOffset

/-- The `dataSize` local of `SetData`:
`img.Dim[1] * img.Dim[2] * img.Dim[3] * timeDim * statDim * (int(h.BitPix) / 8)`
evaluated left-to-right in Go 64-bit `int` arithmetic (each product wraps;
`/` is Go's truncating integer division). -/
def setDataSize (img : Image) (h : Header) : ℤ :=
  wrap64 (wrap64 (wrap64 (wrap64 (wrap64 (img.dim.getD 1 0 * img.dim.getD 2 0) *
    img.dim.getD 3 0) * timeDim img) * statDim img) * h.bitPix.tdiv 8)

/-- Model of `Image.SetData`'s slice assignment `img.Data = b[offset :
offset+dataSize]`: the upper bound is computed in wrapping 64-bit arithmetic,
Go's slice expression requires `0 ≤ low ≤ high ≤ len(b)` and panics otherwise
(`none`), and on success the view is the `high - low` bytes from `low`. -/
def setData (b : List ℕ) (h : Header) (img : Image) : Option (List ℕ) :=
  if 0 ≤ setDataOffset h ∧
      setDataOffset h ≤ wrap64 (setDataOffset h + setDataSize img h) ∧
      wrap64 (setDataOffset h + setDataSize img h) ≤ (b.length : ℤ) then
    some ((b.drop (setDataOffset h).toNat).take
      (wrap64 (setDataOffset h + setDataSize img h) - setDataOffset h).toNat)
  else none

/-- A float32 pattern denotes (positive or negative) zero. -/
def f32IsZero (n : ℕ) : Prop := f32Exp n = 0 ∧ f32Mant n = 0

instance (n : ℕ) : Decidable (f32IsZero n) := by unfold f32IsZero; infer_instance

/-- Fuel-bounded bit length of a natural number (the fuel is structural so
the kernel can evaluate it; `f32Fuel` exceeds every width reachable from
float32 operands). -/
def bitlen : ℕ → ℕ → ℕ
  | 0, _ => 0
  | fuel + 1, n => if n = 0 then 0 else bitlen fuel (n / 2) + 1

/-- Fuel bound for `bitlen`: float32 addition aligns exponents by at most
253 bits onto a 24-bit significand, so 512 covers every intermediate. -/
def f32Fuel : ℕ := 512

/-- Signed integer significand of a finite float32 pattern: the value of the
pattern is `f32SigMant n * 2 ^ f32Exp2 n`. -/
def f32SigMant (n : ℕ) : ℤ :=
  let m : ℤ := if f32Exp n = 0 then f32Mant n else 2 ^ 23 + f32Mant n
  if f32Sign n = 1 then -m else m

/-- Base-2 exponent matching `f32SigMant` (−149 for subnormals). -/
def f32Exp2 (n : ℕ) : ℤ :=
  if f32Exp n = 0 then -149 else (f32Exp n : ℤ) - 150

/-- Round `n / 2 ^ shift` to the nearest integer, ties to even. -/
def rne (n : ℕ) (shift : ℕ) : ℕ :=
  let d := 2 ^ shift
  let q := n / d
  let r := n % d
  if r * 2 > d ∨ (r * 2 = d ∧ q % 2 = 1) then q + 1 else q

/-- Round the dyadic value `num * 2 ^ exp` to the nearest float32 (ties to
even) and return its bit pattern: IEEE-754 binary32 rounding, with gradual
underflow to subnormals or a signed zero and overflow to an infinity. -/
def roundDyadic (num : ℤ) (exp : ℤ) : ℕ :=
  if num = 0 then 0
  else
    let s : ℕ := if num < 0 then 1 else 0
    let n := num.natAbs
    let p : ℤ := exp + bitlen f32Fuel n - 1
    let g : ℤ := max (p - 23) (-149)
    let q : ℕ := if exp ≤ g then rne n (g - exp).toNat else n * 2 ^ (exp - g).toNat
    if q < 2 ^ 23 then s * 2 ^ 31 + q
    else
      let g2 : ℤ := g + ((bitlen f32Fuel q - 24 : ℕ) : ℤ)
      let q2 : ℕ := if bitlen f32Fuel q = 25 then q / 2 else q
      let e : ℤ := g2 + 150
      if 255 ≤ e then s * 2 ^ 31 + 255 * 2 ^ 23
      else s * 2 ^ 31 + e.toNat * 2 ^ 23 + (q2 - 2 ^ 23)

/-- The quiet NaN pattern produced for invalid operations. -/
def canonNaN : ℕ := 0x7FC00000

/-- IEEE-754 binary32 multiplication on bit patterns (round to nearest, ties
to even): NaN operands and Inf·0 give a NaN, infinities keep the xor'd sign,
zero factors give the signed zero, and finite products are the exactly
computed dyadic rounded by `roundDyadic`. -/
def f32Mul (a b : ℕ) : ℕ :=
  if f32Exp a = 255 ∨ f32Exp b = 255 then
    if (f32Exp a = 255 ∧ f32Mant a ≠ 0) ∨ (f32Exp b = 255 ∧ f32Mant b ≠ 0) then canonNaN
    else if f32IsZero a ∨ f32IsZero b then canonNaN
    else (f32Sign a + f32Sign b) % 2 * 2 ^ 31 + 255 * 2 ^ 23
  else if f32IsZero a ∨ f32IsZero b then (f32Sign a + f32Sign b) % 2 * 2 ^ 31
  else roundDyadic (f32SigMant a * f32SigMant b) (f32Exp2 a + f32Exp2 b)

/-- IEEE-754 binary32 addition on bit patterns (round to nearest, ties to
even): NaN operands and ∞ + −∞ give a NaN, an infinite operand wins, exact
zero sums follow the signed-zero rules, and finite sums are aligned exactly
as a dyadic and rounded by `roundDyadic`. -/
def f32Add (a b : ℕ) : ℕ :=
  if f32Exp a = 255 ∨ f32Exp b = 255 then
    if (f32Exp a = 255 ∧ f32Mant a ≠ 0) ∨ (f32Exp b = 255 ∧ f32Mant b ≠ 0) then canonNaN
    else if f32Exp a = 255 ∧ f32Exp b = 255 ∧ f32Sign a ≠ f32Sign b then canonNaN
    else if f32Exp a = 255 then f32Sign a * 2 ^ 31 + 255 * 2 ^ 23
    else f32Sign b * 2 ^ 31 + 255 * 2 ^ 23
  else
    let e := min (f32Exp2 a) (f32Exp2 b)
    let num := f32SigMant a * 2 ^ (f32Exp2 a - e).toNat +
      f32SigMant b * 2 ^ (f32Exp2 b - e).toNat
    if num = 0 then if f32Sign a = 1 ∧ f32Sign b = 1 then 2 ^ 31 else 0
    else roundDyadic num e

/-- Go `float32(d)` for an integer `d` (exact for every int16, rounded like
any other dyadic beyond 24 bits). -/
def f32OfInt (d : ℤ) : ℕ := roundDyadic d 0

/-- Model of `scaleData` (nifti1.go): maps 16-bit samples to
`m*float32(d) + b` computed in float32 arithmetic — the sample converted by
`f32OfInt`, the product and the sum each rounded to nearest (ties to even).
Go permits contracting `x*y + z` into a fused multiply-add; this model uses
the two separately rounded operations (the concrete inputs used in the
theorems below are unaffected: the counterexample adds +0.0 exactly and the
witness's arithmetic is exact throughout). -/
def scaleData (data : List ℤ) (m b : ℕ) : List ℕ :=
  data.map fun d : ℤ => f32Add (f32Mul m (f32OfInt d)) b

/-- Modelled from the spec: the guard deciding whether rescaling runs exists
in the source only as commented-out code (`if header.SclSlope > 0 { ... }` in
`main`, and `scaleData` itself is commented out in the nifti1 package), so the
dispatch is taken from §4.4 of the spec: apply `value = slope*sample +
intercept` when the slope is nonzero, and return the samples unmodified
(skip entirely) when the slope — a float32 — is zero. -/
def rescaleIfNeeded (data : List ℤ) (m b : ℕ) : List ℤ ⊕ List ℕ :=
  if f32IsZero m then .inl data else .inr (scaleData data m b)

/-- Spec-side formula (§4.4 of the spec, claim C5's wording) for the voxel
payload byte length: nx·ny·nz·(bitpix/8), further multiplied by the 4th and
5th extents when they are positive. Stated for comparison with the code's
`setDataSize`. -/
def specDataLength (h : Header) : ℤ :=
  h.dim.getD 1 0 * h.dim.getD 2 0 * h.dim.getD 3 0 * h.bitPix.tdiv 8 *
    (if 0 < h.dim.getD 4 0 then h.dim.getD 4 0 else 1) *
    (if 0 < h.dim.getD 5 0 then h.dim.getD 5 0 else 1)

/-- An all-zero header with the correct size, single-file magic and a signed
16-bit data type: the fields every concrete test below starts from. -/
def baseHeader : Header where
  sizeOfHdr := 348
  unusedDataType := List.replicate 10 0
  unusedDbName := List.replicate 18 0
  unusedExtents := 0
  unusedSessionError := 0
  unusedRegular := 0
  dimInfo := 0
  dim := [3, 2, 2, 2, 0, 0, 0, 0]
  intentP1 := 0
  intentP2 := 0
  intentP3 := 0
  intentCode := 0
  dataType := 4
  bitPix := 16
  sliceStart := 0
  pixDim := List.replicate 8 0
  voxOffset := 0x43B00000
  sclSlope := 0
  sclInter := 0
  sliceEnd := 0
  sliceCode := 0
  xyztUnits := 0
  calMax := 0
  calMin := 0
  sliceDuration := 0
  tOffset := 0
  unusedGlmax := 0
  unusedGlmin := 0
  descrip := List.replicate 80 0
  auxFile := List.replicate 24 0
  qFormCode := 0
  sFormCode := 0
  quaternB := 0
  quaternC := 0
  quaternD := 0
  qOffsetX := 0
  qOffsetY := 0
  qOffsetZ := 0
  sRowX := List.replicate 4 0
  sRowY := List.replicate 4 0
  sRowZ := List.replicate 4 0
  intentName := List.replicate 16 0
  magic := [110, 43, 49, 0]

/-- 348 zero bytes: `dim[0]` reads as 0 under both byte orders. -/
def zeros348 : List ℕ := List.replicate 348 0

/-- Valid header whose `vox_offset` pattern is 352.0f and whose voxel grid is
2×2×2 of 16-bit samples. -/
def hValid : Header := baseHeader

/-- Valid header with 8-bit voxels on a 1×1×1 grid (voxel payload of 1 byte
at offset 352). -/
def hOneByte : Header :=
  { baseHeader with dim := [3, 1, 1, 1, 0, 0, 0, 0], bitPix := 8 }

/-- Valid header exercising the 4th-dimension multiplier:
dim = [5,2,3,4,5,0,0,0], 16-bit voxels. -/
def hFourDim : Header :=
  { baseHeader with dim := [5, 2, 3, 4, 5, 0, 0, 0] }

/-- Valid header whose voxel-size product overflows a signed 64-bit int:
extents 32767 in dimensions 1..5 with bitpix 32752. -/
def hHuge : Header :=
  { baseHeader with dim := [5, 32767, 32767, 32767, 32767, 32767, 0, 0],
                    bitPix := 32752 }

/-- Header with 540 in `sizeof_hdr` and every other field well-formed. -/
def h540 : Header := { baseHeader with sizeOfHdr := 540 }

/-- Header carrying the two-file magic "ni1\x00". -/
def hNi1 : Header := { baseHeader with magic := [110, 105, 49, 0] }

/-- Valid header with nonzero spacing, scaling, calibration, slice-timing and
transform-code fields (float patterns: 1.0f, 2.0f, 3.0f, 4.0f, 5.0f). -/
def hRich : Header :=
  { baseHeader with
      pixDim := [0x3F800000, 0x40000000, 0x40000000, 0x40000000, 0, 0, 0, 0]
      sclSlope := 0x40400000
      sclInter := 0x3F800000
      calMax := 0x40800000
      calMin := 0x3F800000
      sliceDuration := 0x40A00000
      tOffset := 0x3F800000
      qFormCode := 1
      sFormCode := 2
      sliceCode := 1
      sliceStart := 1
      sliceEnd := 2 }

section Lemmas

/-- `wrap64` output never drops below the signed 64-bit minimum. -/
theorem wrap64_lb (x : ℤ) : -(2 ^ 63) ≤ wrap64 x := by
  unfold wrap64; omega

/-- `wrap64` output never reaches the signed 64-bit maximum bound. -/
theorem wrap64_ub (x : ℤ) : wrap64 x < 2 ^ 63 := by
  unfold wrap64; omega

/-- `wrap64` is the identity on values already in signed 64-bit range. -/
theorem wrap64_eq_self {x : ℤ} (h1 : -(2 ^ 63) ≤ x) (h2 : x < 2 ^ 63) :
    wrap64 x = x := by
  unfold wrap64; omega

/-- `wrap64` preserves residues modulo `2 ^ 64`. -/
theorem wrap64_emod (x : ℤ) : wrap64 x % 2 ^ 64 = x % 2 ^ 64 := by
  unfold wrap64; omega

/-- `wrap64` only depends on the residue modulo `2 ^ 64`. -/
theorem wrap64_congr {x y : ℤ} (h : x % 2 ^ 64 = y % 2 ^ 64) :
    wrap64 x = wrap64 y := by
  unfold wrap64; omega

/-- Wrapping an already-wrapped left factor changes nothing: iterated Go
products reduce to one final two's-complement reduction. -/
theorem wrap64_mul_left (x y : ℤ) : wrap64 (wrap64 x * y) = wrap64 (x * y) := by
  refine wrap64_congr ?_
  rw [Int.mul_emod, wrap64_emod, ← Int.mul_emod]

/-- Truncation toward zero of a nonnegative rational is its floor. -/
theorem ratTrunc_eq_floor {q : ℚ} (h : 0 ≤ q) : ratTrunc q = ⌊q⌋ := by
  unfold ratTrunc
  rw [Rat.floor_def]
  exact Int.tdiv_eq_ediv (Rat.num_nonneg.mpr h) (Int.natCast_nonneg q.den)

/-- Truncation is the identity on integer-valued rationals. -/
theorem ratTrunc_intCast (z : ℤ) : ratTrunc (z : ℚ) = z := by
  unfold ratTrunc
  rw [Rat.intCast_num, Rat.intCast_den]
  simp [Int.tdiv_one]

/-- On finite patterns the Go comparison is the exact rational comparison. -/
theorem f32LtConst_finite {n : ℕ} (hf : f32IsFinite n) (c : ℚ) :
    f32LtConst n c = decide (f32ToRat n < c) := by
  unfold f32LtConst
  rw [if_neg hf]

/-- On finite patterns the Go float-to-int conversion truncates the value. -/
theorem goF32ToInt_finite {n : ℕ} (hf : f32IsFinite n) :
    goF32ToInt n = ratTrunc (f32ToRat n) := by
  unfold goF32ToInt
  rw [if_neg hf]

/-- The offset `SetData` picks is never below 352 (finite `vox_offset`). -/
theorem setDataOffset_ge (h : Header) (hf : f32IsFinite h.voxOffset) :
    352 ≤ setDataOffset h := by
  unfold setDataOffset
  rw [f32LtConst_finite hf, goF32ToInt_finite hf]
  simp only [decide_eq_true_eq]
  by_cases hlt : f32ToRat h.voxOffset < 352
  · rw [if_pos hlt]
  · have hge : (352 : ℚ) ≤ f32ToRat h.voxOffset := not_lt.mp hlt
    have h0 : (0 : ℚ) ≤ f32ToRat h.voxOffset := le_trans (by norm_num) hge
    rw [if_neg hlt, ratTrunc_eq_floor h0]
    exact Int.le_floor.mpr (by exact_mod_cast hge)

/-- The offset `SetData` picks stays in signed 64-bit range when the
`vox_offset` value does. -/
theorem setDataOffset_lt (h : Header) (hf : f32IsFinite h.voxOffset)
    (hub : f32ToRat h.voxOffset < 2 ^ 63) : setDataOffset h < 2 ^ 63 := by
  unfold setDataOffset
  rw [f32LtConst_finite hf, goF32ToInt_finite hf]
  simp only [decide_eq_true_eq]
  by_cases hlt : f32ToRat h.voxOffset < 352
  · rw [if_pos hlt]; norm_num
  · have hge : (352 : ℚ) ≤ f32ToRat h.voxOffset := not_lt.mp hlt
    have h0 : (0 : ℚ) ≤ f32ToRat h.voxOffset := le_trans (by norm_num) hge
    rw [if_neg hlt, ratTrunc_eq_floor h0]
    exact Int.floor_lt.mpr (by exact_mod_cast hub)

/-- With a finite `vox_offset` at least 352, `SetData` truncates it. -/
theorem setDataOffset_of_ge {h : Header} (hf : f32IsFinite h.voxOffset)
    (hge : ¬ f32ToRat h.voxOffset < 352) :
    setDataOffset h = ratTrunc (f32ToRat h.voxOffset) := by
  unfold setDataOffset
  rw [f32LtConst_finite hf, goF32ToInt_finite hf]
  simp [hge]

/-- The `dataSize` local always lies in signed 64-bit range. -/
theorem setDataSize_lb (img : Image) (h : Header) :
    -(2 ^ 63) ≤ setDataSize img h := by
  unfold setDataSize; exact wrap64_lb _

/-- The `dataSize` local always lies below the signed 64-bit bound. -/
theorem setDataSize_ub (img : Image) (h : Header) :
    setDataSize img h < 2 ^ 63 := by
  unfold setDataSize; exact wrap64_ub _

/-- With at least 348 bytes, `ReadHeader` always keeps the little-endian
decode (the retry guard is the unsatisfiable `Dim[0] <= 0 && Dim[0] > 7`) and
reduces to little-endian decode followed by validation. -/
theorem readHeader_characterization (b : List ℕ) (hlen : ¬ b.length < 348) :
    ReadHeader b =
      match validateHeader (decodeHeader .little b) with
      | some c => .error (.invalid c)
      | none => .ok (decodeHeader .little b, ByteOrder.little) := by
  have hg : ∀ x : ℤ, ¬ (x ≤ 0 ∧ x > 7) := by intro x hx; omega
  unfold ReadHeader
  rw [if_neg hlen]
  simp only [hg, if_false]

end Lemmas

/-- C3. `validateHeader` rejects a header exactly when one of the three
checks fails — `sizeof_hdr ≠ 348`, `magic ≠ "n+1\x00"`, or `datatype` equal to
the unknown (0) or binary (1) code; at most one cause is ever reported per
call; `sizeof_hdr = 540` is rejected regardless of all other fields, and the
two-file magic "ni1\x00" is rejected; any reported cause aborts the whole
`ReadHeader` decode (the model is a pure function, so validation cannot mutate
the header). -/
theorem c3_validate_iff (h : Header) :
    ((validateHeader h).isSome ↔
      (h.sizeOfHdr ≠ 348 ∨ h.magic ≠ [110, 43, 49, 0] ∨
        h.dataType = DT_UNKNOWN ∨ h.dataType = DT_BINARY)) ∧
    (h.sizeOfHdr = 540 → (validateHeader h).isSome) ∧
    (h.magic = [110, 105, 49, 0] → (validateHeader h).isSome) ∧
    (∀ c c', validateHeader h = some c → validateHeader h = some c' → c = c') ∧
    (∀ b : List ℕ, ¬ b.length < 348 → ∀ c,
      validateHeader (decodeHeader .little b) = some c →
      ReadHeader b = .error (.invalid c)) := by
  refine ⟨?_, ?_, ?_, ?_, ?_⟩
  · unfold validateHeader
    split_ifs <;> tauto
  · intro h540'
    unfold validateHeader
    split_ifs <;> simp_all
  · intro hmag
    unfold validateHeader
    split_ifs with hs hm hd <;> simp_all
  · intro c c' hc hc'
    exact Option.some_injective _ (hc.symm.trans hc')
  · intro b hlen c hc
    rw [readHeader_characterization b hlen, hc]

/-- C3 witness: a header with `sizeof_hdr = 540` (other fields valid) is
rejected, and a header carrying the two-file magic "ni1\x00" is rejected. -/
theorem c3_validate_iff_witness :
    (validateHeader h540).isSome ∧ (validateHeader hNi1).isSome :=
  ⟨(c3_validate_iff h540).2.1 rfl, (c3_validate_iff hNi1).2.2.1 rfl⟩

/-- C10. For every input buffer, `ReadHeader` can only return the
little-endian byte order and can never fail with the indeterminate-byte-order
panic: the big-endian fallback's guard `(Dim[0] <= 0) && (Dim[0] > 7)` is
unsatisfiable, so the fallback branch and the panic are unreachable. -/
theorem c10_little_endian_only (b : List ℕ) :
    (∀ h order, ReadHeader b = .ok (h, order) → order = ByteOrder.little) ∧
    ReadHeader b ≠ .error Err.indeterminateOrder := by
  by_cases hlen : b.length < 348
  · have heq : ReadHeader b = .error Err.shortRead := by
      rw [ReadHeader, if_pos hlen]
    constructor
    · intro h order hok
      rw [heq] at hok
      exact Except.noConfusion hok
    · rw [heq]
      intro hcon
      exact Err.noConfusion (Except.error.inj hcon)
  · cases hv : validateHeader (decodeHeader .little b) with
    | some c =>
        have heq : ReadHeader b = .error (Err.invalid c) := by
          rw [readHeader_characterization b hlen, hv]
        constructor
        · intro h order hok
          rw [heq] at hok
          exact Except.noConfusion hok
        · rw [heq]
          intro hcon
          exact Err.noConfusion (Except.error.inj hcon)
    | none =>
        have heq : ReadHeader b =
            .ok (decodeHeader ByteOrder.little b, ByteOrder.little) := by
          rw [readHeader_characterization b hlen, hv]
        constructor
        · intro h order hok
          have h3 := Except.ok.inj (heq.symm.trans hok)
          exact (congrArg Prod.snd h3).symm
        · rw [heq]
          intro hcon
          exact Except.noConfusion hcon

/-- C10 witness: on the little-endian encoding of a valid header the decode
succeeds, the theorem forces the reported order to be little-endian, and the
indeterminate-byte-order error does not occur. -/
theorem c10_little_endian_only_witness :
    ByteOrder.little = ByteOrder.little ∧
    ReadHeader (encodeHeader .little hValid) ≠ .error Err.indeterminateOrder :=
  ⟨(c10_little_endian_only (encodeHeader .little hValid)).1 hValid
      ByteOrder.little (by rfl),
    (c10_little_endian_only (encodeHeader .little hValid)).2⟩

/-- C1. The claimed probe protocol does not happen on the all-zero 348-byte
buffer: its little-endian `dim[0]` is 0, outside [1,7], so the claim requires
a big-endian retry followed by the indeterminate-byte-order failure; the code
instead keeps the little-endian decode (its retry guard
`Dim[0] <= 0 && Dim[0] > 7` cannot fire) and aborts in validation with the
invalid-header-size cause. -/
theorem c1_zero_buffer_no_retry :
    (decodeHeader .little zeros348).dim.getD 0 0 = 0 ∧
    ¬ (1 ≤ (decodeHeader .little zeros348).dim.getD 0 0 ∧
        (decodeHeader .little zeros348).dim.getD 0 0 ≤ 7) ∧
    (decodeHeader .big zeros348).dim.getD 0 0 = 0 ∧
    ReadHeader zeros348 = .error (Err.invalid VCause.badSize) ∧
    ReadHeader zeros348 ≠ .error Err.indeterminateOrder := by
  refine ⟨rfl, by decide, rfl, rfl, ?_⟩
  intro hcon
  exact Err.noConfusion (Except.error.inj hcon)

/-- C2. The big-endian half of the round-trip claim fails: `hValid` has
`dim[0] = 3 ∈ [1,7]` and is valid, its big-endian field-by-field encoding
decodes back to `hValid` under big-endian, yet `ReadHeader` does not return
`(hValid, big)` — it decodes little-endian only (the retry guard cannot
fire), misreads `sizeof_hdr` as 1543569408, and aborts with the
invalid-header-size cause. -/
theorem c2_big_endian_roundtrip_broken :
    hValid.dim.getD 0 0 = 3 ∧
    validateHeader hValid = none ∧
    decodeHeader .big (encodeHeader .big hValid) = hValid ∧
    (decodeHeader .little (encodeHeader .big hValid)).sizeOfHdr = 1543569408 ∧
    ReadHeader (encodeHeader .big hValid) = .error (Err.invalid VCause.badSize) := by
  exact ⟨rfl, rfl, rfl, rfl, rfl⟩

/-- A 353-byte buffer: exactly offset 352 plus a 1-byte voxel payload. -/
def b353 : List ℕ := List.replicate 353 0

/-- A 352-byte buffer: one byte too short for a 1-byte payload at offset 352. -/
def b352 : List ℕ := List.replicate 352 0

/-- C4. For every buffer, validated header and extents (with the header's
`vox_offset` a finite float below `2 ^ 63`, so its Go conversion to `int` is
defined): whenever `offset + length` exceeds the buffer's length the slice
assignment in `SetData` panics (no silent clamping), and whenever the
computed length is a byte count (`0 ≤ dataSize`), the range fits the machine
and the buffer is exactly `offset + length` bytes long, it succeeds with the
view of exactly `length` bytes starting at `offset`. -/
theorem c4_setdata_bounds (b : List ℕ) (h : Header) (img : Image)
    (_hval : validateHeader h = none)
    (hfin : f32IsFinite h.voxOffset)
    (hub : f32ToRat h.voxOffset < 2 ^ 63) :
    ((b.length : ℤ) < setDataOffset h + setDataSize img h →
      setData b h img = none) ∧
    (0 ≤ setDataSize img h →
      setDataOffset h + setDataSize img h < 2 ^ 63 →
      (b.length : ℤ) = setDataOffset h + setDataSize img h →
      setData b h img =
        some ((b.drop (setDataOffset h).toNat).take (setDataSize img h).toNat) ∧
      ((b.drop (setDataOffset h).toNat).take
          (setDataSize img h).toNat).length = (setDataSize img h).toNat) := by
  have hoff1 : 352 ≤ setDataOffset h := setDataOffset_ge h hfin
  have hoff2 : setDataOffset h < 2 ^ 63 := setDataOffset_lt h hfin hub
  have hds1 := setDataSize_lb img h
  have hds2 := setDataSize_ub img h
  have hw1 := wrap64_emod (setDataOffset h + setDataSize img h)
  have hw2 := wrap64_lb (setDataOffset h + setDataSize img h)
  have hw3 := wrap64_ub (setDataOffset h + setDataSize img h)
  constructor
  · intro hlen
    have hnot : ¬ (0 ≤ setDataOffset h ∧
        setDataOffset h ≤ wrap64 (setDataOffset h + setDataSize img h) ∧
        wrap64 (setDataOffset h + setDataSize img h) ≤ (b.length : ℤ)) := by
      omega
    rw [setData, if_neg hnot]
  · intro hds0 hsum hlen
    have hself : wrap64 (setDataOffset h + setDataSize img h) =
        setDataOffset h + setDataSize img h := wrap64_eq_self (by omega) hsum
    have hcond : 0 ≤ setDataOffset h ∧
        setDataOffset h ≤ wrap64 (setDataOffset h + setDataSize img h) ∧
        wrap64 (setDataOffset h + setDataSize img h) ≤ (b.length : ℤ) := by
      omega
    constructor
    · rw [setData, if_pos hcond, hself, add_sub_cancel_left]
    · simp only [List.length_take, List.length_drop]
      omega

/-- C4 witness: with a 1×1×1 grid of 8-bit voxels and `vox_offset` 352.0f the
computed range is [352, 353); on a 353-byte buffer `SetData` yields exactly
the 1-byte view at offset 352, and on a 352-byte buffer it fails. -/
theorem c4_setdata_bounds_witness :
    (setData b353 hOneByte (ConvertHeaderToImage hOneByte .little) =
      some ((b353.drop (setDataOffset hOneByte).toNat).take
        (setDataSize (ConvertHeaderToImage hOneByte .little) hOneByte).toNat) ∧
     ((b353.drop (setDataOffset hOneByte).toNat).take
        (setDataSize (ConvertHeaderToImage hOneByte .little) hOneByte).toNat).length =
      (setDataSize (ConvertHeaderToImage hOneByte .little) hOneByte).toNat) ∧
    setData b352 hOneByte (ConvertHeaderToImage hOneByte .little) = none := by
  have hfin : f32IsFinite hOneByte.voxOffset := by decide
  have hv : f32ToRat hOneByte.voxOffset = 352 := by
    norm_num [f32ToRat, f32Exp, f32Mant, f32Sign, hOneByte, baseHeader]
  have hub : f32ToRat hOneByte.voxOffset < 2 ^ 63 := by
    rw [hv]; norm_num
  have hofs : setDataOffset hOneByte = 352 := by
    have h352 : (352 : ℚ) = ((352 : ℤ) : ℚ) := by norm_cast
    rw [setDataOffset_of_ge hfin (by rw [hv]; norm_num), hv, h352, ratTrunc_intCast]
  have hds : setDataSize (ConvertHeaderToImage hOneByte .little) hOneByte = 1 := by
    decide
  refine ⟨(c4_setdata_bounds b353 hOneByte (ConvertHeaderToImage hOneByte .little)
      rfl hfin hub).2 ?_ ?_ ?_,
    (c4_setdata_bounds b352 hOneByte (ConvertHeaderToImage hOneByte .little)
      rfl hfin hub).1 ?_⟩
  · rw [hds]; norm_num
  · rw [hofs, hds]; norm_num
  · rw [hofs, hds]; decide
  · rw [hofs, hds]; decide

/-- `wrap64` congruence as an `Int.ModEq` fact. -/
theorem wrap64_modeq (x : ℤ) : wrap64 x ≡ x [ZMOD 2 ^ 64] := wrap64_emod x

/-- Collapse a wrapped left factor under one extra multiplication. -/
theorem wrap64_mul_left2 (x y z : ℤ) :
    wrap64 ((wrap64 x * y) * z) = wrap64 ((x * y) * z) :=
  wrap64_congr (((wrap64_modeq x).mul_right y).mul_right z)

/-- Collapse a wrapped left factor under two extra multiplications. -/
theorem wrap64_mul_left3 (x y z w : ℤ) :
    wrap64 (((wrap64 x * y) * z) * w) = wrap64 (((x * y) * z) * w) :=
  wrap64_congr ((((wrap64_modeq x).mul_right y).mul_right z).mul_right w)

/-- Collapse a wrapped left factor under three extra multiplications. -/
theorem wrap64_mul_left4 (x y z w v : ℤ) :
    wrap64 ((((wrap64 x * y) * z) * w) * v) = wrap64 ((((x * y) * z) * w) * v) :=
  wrap64_congr (((((wrap64_modeq x).mul_right y).mul_right z).mul_right w).mul_right v)

/-- C5 (amended). For every validated header, the voxel byte length computed
by `SetData` on the image built from it is the spec's product
nx·ny·nz·(bitpix/8)·(dim4 when positive)·(dim5 when positive) reduced into a
signed 64-bit integer; it equals the exact product whenever that product fits
in signed 64-bit range. -/
theorem c5_datasize_formula (h : Header) (o : ByteOrder)
    (_hval : validateHeader h = none) :
    setDataSize (ConvertHeaderToImage h o) h = wrap64 (specDataLength h) ∧
    (-(2 ^ 63) ≤ specDataLength h → specDataLength h < 2 ^ 63 →
      setDataSize (ConvertHeaderToImage h o) h = specDataLength h) := by
  have e1 : (ConvertHeaderToImage h o).dim.getD 1 0 = h.dim.getD 1 0 := rfl
  have e2 : (ConvertHeaderToImage h o).dim.getD 2 0 = h.dim.getD 2 0 := rfl
  have e3 : (ConvertHeaderToImage h o).dim.getD 3 0 = h.dim.getD 3 0 := rfl
  have e4 : (ConvertHeaderToImage h o).dim.getD 4 0 = h.dim.getD 4 0 := rfl
  have e5 : (ConvertHeaderToImage h o).dim.getD 5 0 = h.dim.getD 5 0 := rfl
  have hmain : setDataSize (ConvertHeaderToImage h o) h = wrap64 (specDataLength h) := by
    unfold setDataSize
    rw [wrap64_mul_left, wrap64_mul_left2, wrap64_mul_left3, wrap64_mul_left4]
    apply congrArg wrap64
    unfold specDataLength timeDim statDim
    rw [e1, e2, e3, e4, e5]
    ring
  exact ⟨hmain, fun hb1 hb2 => hmain.trans (wrap64_eq_self hb1 hb2)⟩

/-- C5 witness: a valid header with dim = [5,2,3,4,5,0,0,0] and bitpix 16
yields the in-range product 2·3·4·2·5·1 = 240. -/
theorem c5_datasize_formula_witness :
    setDataSize (ConvertHeaderToImage hFourDim ByteOrder.little) hFourDim =
      specDataLength hFourDim ∧ specDataLength hFourDim = 240 :=
  ⟨(c5_datasize_formula hFourDim ByteOrder.little rfl).2 (by decide) (by decide),
   by decide⟩

/-- C5 counterexample: on a valid header with extents 32767 in dimensions
1..5 and bitpix 32752 the Go product wraps around 64 bits, so the computed
`dataSize` differs from the exact product of the claim's formula. -/
theorem c5_datasize_formula_counterexample :
    validateHeader hHuge = none ∧
    setDataSize (ConvertHeaderToImage hHuge ByteOrder.little) hHuge ≠
      specDataLength hHuge := by
  exact ⟨rfl, by decide⟩

/-- C7. The Image struct documents `NVox` as the voxel count
nx·ny·nz·…, and the claim requires nx·ny·nz·max(nt,1)·max(nu,1); but
`ConvertHeaderToImage` never assigns `NVox`, so on the valid rank-3 header
with extents 2×2×2 the descriptor's voxel count is 0, not 8. -/
theorem c7_nvox_left_zero :
    validateHeader hValid = none ∧
    hValid.dim.getD 0 0 = 3 ∧
    hValid.dim.getD 1 0 * hValid.dim.getD 2 0 * hValid.dim.getD 3 0 *
      max (hValid.dim.getD 4 0) 1 * max (hValid.dim.getD 5 0) 1 = 8 ∧
    (ConvertHeaderToImage hValid ByteOrder.little).nVox = 0 ∧
    (0 : ℤ) ≠ 8 :=
  ⟨rfl, rfl, by decide, rfl, by decide⟩

/-- C8 (amended). For every header and byte order, `ConvertHeaderToImage`
copies the rank and all eight extents verbatim and records the byte order,
but carries nothing else: the spacing values, scale slope/intercept,
calibration bounds, slice-timing fields, transform-code selectors and voxel
count all keep their zero initial values. -/
theorem c8_convert_copies (h : Header) (o : ByteOrder) :
    (ConvertHeaderToImage h o).nDim = h.dim.getD 0 0 ∧
    (ConvertHeaderToImage h o).nx = h.dim.getD 1 0 ∧
    (ConvertHeaderToImage h o).ny = h.dim.getD 2 0 ∧
    (ConvertHeaderToImage h o).nz = h.dim.getD 3 0 ∧
    (ConvertHeaderToImage h o).nt = h.dim.getD 4 0 ∧
    (ConvertHeaderToImage h o).nu = h.dim.getD 5 0 ∧
    (ConvertHeaderToImage h o).nv = h.dim.getD 6 0 ∧
    (ConvertHeaderToImage h o).nw = h.dim.getD 7 0 ∧
    (ConvertHeaderToImage h o).dim =
      [h.dim.getD 0 0, h.dim.getD 1 0, h.dim.getD 2 0, h.dim.getD 3 0,
       h.dim.getD 4 0, h.dim.getD 5 0, h.dim.getD 6 0, h.dim.getD 7 0] ∧
    (ConvertHeaderToImage h o).byteOrder = o ∧
    (ConvertHeaderToImage h o).nVox = 0 ∧
    (ConvertHeaderToImage h o).pixDim = List.replicate 8 0 ∧
    (ConvertHeaderToImage h o).dx = 0 ∧
    (ConvertHeaderToImage h o).dy = 0 ∧
    (ConvertHeaderToImage h o).dz = 0 ∧
    (ConvertHeaderToImage h o).dt = 0 ∧
    (ConvertHeaderToImage h o).du = 0 ∧
    (ConvertHeaderToImage h o).sclSlope = 0 ∧
    (ConvertHeaderToImage h o).sclInter = 0 ∧
    (ConvertHeaderToImage h o).calMin = 0 ∧
    (ConvertHeaderToImage h o).calMax = 0 ∧
    (ConvertHeaderToImage h o).qFormCode = 0 ∧
    (ConvertHeaderToImage h o).sFormCode = 0 ∧
    (ConvertHeaderToImage h o).sliceCode = 0 ∧
    (ConvertHeaderToImage h o).sliceStart = 0 ∧
    (ConvertHeaderToImage h o).sliceEnd = 0 ∧
    (ConvertHeaderToImage h o).sliceDuration = 0 :=
  ⟨rfl, rfl, rfl, rfl, rfl, rfl, rfl, rfl, rfl, rfl, rfl, rfl, rfl, rfl,
   rfl, rfl, rfl, rfl, rfl, rfl, rfl, rfl, rfl, rfl, rfl, rfl, rfl⟩

/-- C8 counterexample: on a valid header with nonzero spacing, scaling,
calibration, slice-timing and transform-code fields, the descriptor does not
carry them through — e.g. its qform code is 0 while the header's is 1 — so
the claim's carry-through conjunction fails. -/
theorem c8_convert_copies_counterexample :
    ¬ ((ConvertHeaderToImage hRich ByteOrder.little).byteOrder = ByteOrder.little ∧
       (ConvertHeaderToImage hRich ByteOrder.little).nDim = hRich.dim.getD 0 0 ∧
       (ConvertHeaderToImage hRich ByteOrder.little).pixDim =
         hRich.pixDim.map (fun p => f32ToRat p) ∧
       (ConvertHeaderToImage hRich ByteOrder.little).sclSlope = f32ToRat hRich.sclSlope ∧
       (ConvertHeaderToImage hRich ByteOrder.little).sclInter = f32ToRat hRich.sclInter ∧
       (ConvertHeaderToImage hRich ByteOrder.little).calMin = f32ToRat hRich.calMin ∧
       (ConvertHeaderToImage hRich ByteOrder.little).calMax = f32ToRat hRich.calMax ∧
       (ConvertHeaderToImage hRich ByteOrder.little).sliceCode = hRich.sliceCode ∧
       (ConvertHeaderToImage hRich ByteOrder.little).sliceStart = hRich.sliceStart ∧
       (ConvertHeaderToImage hRich ByteOrder.little).sliceEnd = hRich.sliceEnd ∧
       (ConvertHeaderToImage hRich ByteOrder.little).sliceDuration =
         f32ToRat hRich.sliceDuration ∧
       (ConvertHeaderToImage hRich ByteOrder.little).qFormCode = hRich.qFormCode ∧
       (ConvertHeaderToImage hRich ByteOrder.little).sFormCode = hRich.sFormCode) := by
  intro hcl
  obtain ⟨-, -, -, -, -, -, -, -, -, -, -, hq, -⟩ := hcl
  exact absurd hq (by decide)

/-- C9 (amended). `scaleData` maps a list of 16-bit samples to a list of the
same length whose i-th element is `slope * sample + intercept` evaluated in
float32 arithmetic (the sample converted to float32, the product and sum each
rounded to nearest, ties to even) — not the exact real value — and the
(spec-modelled) dispatch applies it exactly when the float32 slope is
nonzero, returning the samples unmodified when the slope is zero. -/
theorem c9_rescale (data : List ℤ) (m b : ℕ) :
    (scaleData data m b).length = data.length ∧
    (∀ i, i < data.length →
      (scaleData data m b).getD i 0 = f32Add (f32Mul m (f32OfInt (data.getD i 0))) b) ∧
    (¬ f32IsZero m → rescaleIfNeeded data m b = Sum.inr (scaleData data m b)) ∧
    (f32IsZero m → rescaleIfNeeded data m b = Sum.inl data) := by
  refine ⟨by simp only [scaleData, List.length_map], ?_, ?_, ?_⟩
  · intro i hi
    have hi' : i < (scaleData data m b).length := by
      simp only [scaleData, List.length_map]
      exact hi
    rw [List.getD_eq_getElem _ _ hi', List.getD_eq_getElem _ _ hi]
    simp only [scaleData, List.getElem_map]
  · intro hm
    simp [rescaleIfNeeded, hm]
  · intro hm
    simp [rescaleIfNeeded, hm]

/-- C9 witness: slope 2.0f, intercept 1.0f on sample −3 is exact float32
arithmetic and yields exactly −5.0 (pattern 0xC0A00000, value −5), with the
dispatch rescaling; the slope-zero pattern returns the samples unmodified. -/
theorem c9_rescale_witness :
    (scaleData [(-3 : ℤ)] 0x40000000 0x3F800000).getD 0 0 =
      f32Add (f32Mul 0x40000000 (f32OfInt (-3 : ℤ))) 0x3F800000 ∧
    (scaleData [(-3 : ℤ)] 0x40000000 0x3F800000).getD 0 0 = 0xC0A00000 ∧
    f32ToRat 0xC0A00000 = -5 ∧
    rescaleIfNeeded [(-3 : ℤ)] 0x40000000 0x3F800000 =
      Sum.inr (scaleData [(-3 : ℤ)] 0x40000000 0x3F800000) ∧
    rescaleIfNeeded [(-3 : ℤ)] 0 0x3F800000 = Sum.inl [(-3 : ℤ)] := by
  refine ⟨(c9_rescale [(-3 : ℤ)] 0x40000000 0x3F800000).2.1 0 (by norm_num),
    by decide,
    by norm_num [f32ToRat, f32Exp, f32Mant, f32Sign],
    (c9_rescale [(-3 : ℤ)] 0x40000000 0x3F800000).2.2.1 (by decide),
    (c9_rescale [(-3 : ℤ)] 0 0x3F800000).2.2.2 (by decide)⟩

/-- C9 counterexample: the float32 slope 1 + 2⁻²³ (pattern 0x3F800001,
nonzero) with intercept +0.0 on sample 3: the program's float32 arithmetic
rounds the product and produces the value 6291457/2097152, while the claim's
exact `slope * sample + intercept` is 25165827/8388608 — so the claimed exact
equality fails (the intercept +0.0 makes the result identical whether or not
Go fuses the multiply-add). -/
theorem c9_rescale_counterexample :
    ¬ f32IsZero 0x3F800001 ∧
    (scaleData [(3 : ℤ)] 0x3F800001 0).getD 0 0 = 0x40400002 ∧
    f32ToRat 0x40400002 = 6291457 / 2097152 ∧
    f32ToRat 0x3F800001 * ((3 : ℤ) : ℚ) + f32ToRat 0 = 25165827 / 8388608 ∧
    f32ToRat ((scaleData [(3 : ℤ)] 0x3F800001 0).getD 0 0) ≠
      f32ToRat 0x3F800001 * ((3 : ℤ) : ℚ) + f32ToRat 0 := by
  have hval : (scaleData [(3 : ℤ)] 0x3F800001 0).getD 0 0 = 0x40400002 := by decide
  refine ⟨by decide, hval,
    by norm_num [f32ToRat, f32Exp, f32Mant, f32Sign],
    by norm_num [f32ToRat, f32Exp, f32Mant, f32Sign], ?_⟩
  rw [hval]
  norm_num [f32ToRat, f32Exp, f32Mant, f32Sign]

end Gonifti
